import Mathlib

/-
Verification of `src/tmux-sessions.py` (Alfred tmux-sessions workflow).

The Python script is embedded shallowly:
* Python strings are Lean `String`s; string primitives used by the script
  (`split`, `strip`, `lower`, `in`, `isdigit`, `int(...)`) are re-implemented
  below on `List Char` exactly as Python behaves on code points in the ASCII
  range.  (Python's Unicode-wide `isdigit`/`lower`/`strip` classes are not
  modelled beyond ASCII; every concrete input used in the theorems is ASCII.)
* `int(...)` is fallible in Python (raises `ValueError`); it is modelled as
  `Option Int` (`pyInt`).  `str.isdigit` guards in the script guarantee the
  guarded `int(...)` calls succeed, and those branches use `digitsToInt`.
* The one wall-clock read (`datetime.now()`) is injected as an explicit
  integer parameter `now` (epoch seconds).
* The one subprocess call is injected as a `CmdOutcome` value describing how
  `subprocess.run(["tmux", ...])` ended.
* Exceptions that cross function boundaries (`FileNotFoundError`, generic
  `Exception`) are modelled with `Except PyErr`.
-/

namespace TmuxSessions

/-- Python `str.split(sep)` for a one-character separator, on char lists.
`"".split(sep)` is `[""]`, so the empty list of chars maps to `[[]]`. -/
def pySplitCh (sep : Char) : List Char → List (List Char)
  | [] => [[]]
  | c :: cs =>
      let r := pySplitCh sep cs
      if c = sep then [] :: r
      else
        match r with
        | [] => [[c]]
        | f :: rest => (c :: f) :: rest

/-- Python `s.split(sep)` for a one-character separator. -/
def pySplit (s : String) (sep : Char) : List String :=
  (pySplitCh sep s.data).map String.mk

/-- Python whitespace characters stripped by `str.strip()` (ASCII range). -/
def isPyWs (c : Char) : Bool :=
  c = ' ' || c = '\t' || c = '\n' || c = '\r' || c = '\x0b' || c = '\x0c'

/-- Python `str.strip()` on char lists: drop whitespace from both ends. -/
def pyStripL (cs : List Char) : List Char :=
  ((cs.dropWhile isPyWs).reverse.dropWhile isPyWs).reverse

/-- Python `s.strip()`. -/
def pyStrip (s : String) : String := ⟨pyStripL s.data⟩

/-- Python `str.isdigit()` restricted to ASCII: nonempty and all chars 0-9. -/
def pyIsdigit (s : String) : Bool := !s.data.isEmpty && s.data.all Char.isDigit

/-- Decimal value of a digit string (used where a `str.isdigit()` guard makes
the Python `int(...)` call infallible). -/
def digitsVal (cs : List Char) : Nat :=
  cs.foldl (fun acc c => acc * 10 + (c.toNat - 48)) 0

/-- Value of `int(s)` on an all-digit string. -/
def digitsToInt (s : String) : Int := Int.ofNat (digitsVal s.data)

/-- Digit-and-underscore tail of a Python integer literal: a single `_` may
stand between two digits (`int("1_0")` is 10, `int("1__0")` raises). -/
def pyDigitsRest : Nat → List Char → Option Nat
  | acc, [] => some acc
  | acc, c :: cs =>
      if c.isDigit then pyDigitsRest (acc * 10 + (c.toNat - 48)) cs
      else if c = '_' then
        match cs with
        | [] => none
        | d :: ds =>
            if d.isDigit then pyDigitsRest (acc * 10 + (d.toNat - 48)) ds
            else none
      else none

/-- Unsigned part of a Python integer literal: at least one digit. -/
def pyNatDigits : List Char → Option Nat
  | [] => none
  | c :: cs => if c.isDigit then pyDigitsRest (c.toNat - 48) cs else none

/-- Python `int(s)`: strip whitespace, optional sign, digits with optional
underscore separators; `none` models a raised `ValueError`. -/
def pyInt (s : String) : Option Int :=
  match pyStripL s.data with
  | '+' :: cs => (pyNatDigits cs).map (fun n => Int.ofNat n)
  | '-' :: cs => (pyNatDigits cs).map (fun n => -(Int.ofNat n))
  | cs => (pyNatDigits cs).map (fun n => Int.ofNat n)

/-- Python `str.lower()` on char lists (ASCII range). -/
def pyLowerL (cs : List Char) : List Char := cs.map Char.toLower

/-- Python `s.lower()`. -/
def pyLower (s : String) : String := ⟨pyLowerL s.data⟩

/-- Is the first list a leading block of the second (char-by-char)? -/
def isPrefCh : List Char → List Char → Bool
  | [], _ => true
  | _ :: _, [] => false
  | a :: as, b :: bs => a == b && isPrefCh as bs

/-- Is the first list a contiguous block of the second?  Implements the
Python substring test `sub in hay`. -/
def isSubCh : List Char → List Char → Bool
  | n, [] => n.isEmpty
  | n, h :: t => isPrefCh n (h :: t) || isSubCh n t

/-- Python `sub in hay` (substring containment). -/
def pyContains (hay sub : String) : Bool := isSubCh sub.data hay.data

/-- The `Session` dataclass of the script. -/
structure Session where
  name : String
  windows : Int
  created_timestamp : Int
  is_attached : Bool
  activity_timestamp : Int
deriving Repr, DecidableEq

/-- INVALID_SESSION_CHARS from the script (a Python set; order is irrelevant
because it is only consumed by `any`). -/
def INVALID_SESSION_CHARS : List Char := ['.', ':', ' ', '\n', '\t']

/-- Earliest timestamp `datetime.fromtimestamp` accepts: year 1, modelled at
UTC.  The script catches `ValueError`/`OSError`/`OverflowError` from
`fromtimestamp`; those arise exactly for timestamps outside the year 1-9999
range (the local-offset shift and narrower platform limits are not
modelled). -/
def MIN_TS : Int := -62135596800

/-- Latest timestamp `datetime.fromtimestamp` accepts: end of year 9999,
modelled at UTC. -/
def MAX_TS : Int := 253402300799

/-- Whether `datetime.fromtimestamp(timestamp)` succeeds in the model. -/
def ts_valid (timestamp : Int) : Bool :=
  decide (MIN_TS ≤ timestamp) && decide (timestamp ≤ MAX_TS)

/-- `format_time_ago` from the script, with `datetime.now()` injected as
`now` (epoch seconds).  `delta = now - fromtimestamp(timestamp)` is a Python
`timedelta`, whose normalized fields are `delta.days = diff // 86400`
(floor) and `delta.seconds = diff % 86400` (always in `[0, 86400)`); both
match Lean's `/` and `%` on `Int` for this positive divisor. -/
def format_time_ago (now timestamp : Int) : String :=
  if ts_valid timestamp then
    if (now - timestamp) / 86400 > 0 then
      toString ((now - timestamp) / 86400) ++ "d ago"
    else if ((now - timestamp) % 86400) / 3600 > 0 then
      toString (((now - timestamp) % 86400) / 3600) ++ "h ago"
    else if ((now - timestamp) % 86400) / 60 > 0 then
      toString (((now - timestamp) % 86400) / 60) ++ "m ago"
    else "just now"
  else "unknown"

/-- Modelled from the spec: the relative-time rule as the spec words it
("choosing the largest unit with value ≥ 1 among days, then hours, then
minutes, else just now"), used to compare claim C6 against the code's
`format_time_ago`. -/
def format_time_ago_spec (now timestamp : Int) : String :=
  if ts_valid timestamp then
    if (now - timestamp) / 86400 ≥ 1 then
      toString ((now - timestamp) / 86400) ++ "d ago"
    else if (now - timestamp) / 3600 ≥ 1 then
      toString ((now - timestamp) / 3600) ++ "h ago"
    else if (now - timestamp) / 60 ≥ 1 then
      toString ((now - timestamp) / 60) ++ "m ago"
    else "just now"
  else "unknown"

/-- `Session.status_emoji`. -/
def status_emoji (s : Session) : String :=
  if s.is_attached then "🟢 attached" else "⚪ detached"

/-- `Session.subtitle`, an f-string over the derived display fields. -/
def session_subtitle (now : Int) (s : Session) : String :=
  status_emoji s ++ " • " ++ toString s.windows ++ " windows • created " ++
    format_time_ago now s.created_timestamp ++ " • active " ++
    format_time_ago now s.activity_timestamp

/-- One modifier entry of an Alfred item (`cmd` or `ctrl` in `mods`).  A
`valid` of `none` means the key is absent from the emitted dict, which
Alfred reads as enabled. -/
structure ModItem where
  subtitle : String
  arg : String
  valid : Option Bool
deriving Repr, DecidableEq

/-- The `mods` dict of an Alfred item. -/
structure Mods where
  cmd : ModItem
  ctrl : ModItem
deriving Repr, DecidableEq

/-- One Alfred result item.  `none` in an `Option` field models an absent
dict key (`valid` absent means actionable); `icon` holds the `path` of the
`icon` sub-dict when present. -/
structure AlfredItem where
  title : String
  subtitle : Option String
  arg : Option String
  valid : Option Bool
  mods : Option Mods
  icon : Option String
deriving Repr, DecidableEq

/-- `Session.to_alfred_item`, with the wall clock injected for the subtitle's
relative times. -/
def to_alfred_item (now : Int) (s : Session) : AlfredItem :=
  ⟨s.name,
   some (session_subtitle now s),
   some s.name,
   none,
   some ⟨⟨"Delete session " ++ s.name, "delete:" ++ s.name, none⟩,
         ⟨(if s.is_attached then "Detach from session " ++ s.name
           else "Session " ++ s.name ++ " already detached"),
          "detach:" ++ s.name,
          some s.is_attached⟩⟩,
   none⟩

/-- `parse_session_line` from the script.  The pipe-split fields are read as
`name, windows, created, attached, activity`; the guarded `int(...)` calls
cannot fail, while the fallback `int(parts[2])` for a non-digit activity
field can raise `ValueError`, which the surrounding `try/except` turns into
`None` - modelled by the `Option Int` match. -/
def parse_session_line (line : String) : Option Session :=
  if line = "" then none
  else
    let parts := pySplit line '|'
    if parts.length < 5 then none
    else
      let windows : Int :=
        if pyIsdigit (parts.getD 1 "") then digitsToInt (parts.getD 1 "") else 1
      let created : Int :=
        if pyIsdigit (parts.getD 2 "") then digitsToInt (parts.getD 2 "") else 0
      let attached : Bool := parts.getD 3 "" == "1"
      let activity : Option Int :=
        if pyIsdigit (parts.getD 4 "") then some (digitsToInt (parts.getD 4 ""))
        else pyInt (parts.getD 2 "")
      match activity with
      | some a => some ⟨parts.getD 0 "", windows, created, attached, a⟩
      | none => none

/-- How the `subprocess.run(["tmux", "list-sessions", ...])` call ended. -/
inductive CmdOutcome where
  | success (stdout : String)
  | nonzeroExit
  | timedOut
  | execMissing
deriving Repr, DecidableEq

/-- Exceptions that cross function boundaries in the script. -/
inductive PyErr where
  | fileNotFound
  | other (msg : String)
deriving Repr, DecidableEq

instance {ε α : Type} [DecidableEq ε] [DecidableEq α] : DecidableEq (Except ε α) :=
  fun x y =>
    match x, y with
    | .ok a, .ok b =>
        if h : a = b then .isTrue (by rw [h])
        else .isFalse (fun hc => h (Except.ok.inj hc))
    | .error e, .error f =>
        if h : e = f then .isTrue (by rw [h])
        else .isFalse (fun hc => h (Except.error.inj hc))
    | .ok _, .error _ => .isFalse (fun hc => Except.noConfusion hc)
    | .error _, .ok _ => .isFalse (fun hc => Except.noConfusion hc)

/-- `get_tmux_sessions` from the script, over the injected subprocess
outcome: `CalledProcessError` (nonzero exit, because of `check=True`) and
`TimeoutExpired` are caught and yield `[]`; `FileNotFoundError` is
re-raised; otherwise stdout is stripped, split into lines, and each line
that parses contributes one session. -/
def get_tmux_sessions : CmdOutcome → Except PyErr (List Session)
  | .success out =>
      if pyStrip out = "" then .ok []
      else .ok ((pySplit (pyStrip out) '\n').filterMap parse_session_line)
  | .nonzeroExit => .ok []
  | .timedOut => .ok []
  | .execMissing => .error .fileNotFound

/-- `is_valid_session_name` from the script. -/
def is_valid_session_name (name : String) : Bool :=
  (!decide (name = "")) &&
    !(INVALID_SESSION_CHARS.any fun c => name.data.contains c)

/-- `create_session_prompt` from the script. -/
def create_session_prompt (query : String) : AlfredItem :=
  if is_valid_session_name query then
    ⟨"Create new session \"" ++ query ++ "\"",
     some "Press Enter to create this tmux session",
     some ("create:" ++ query),
     none, none, some "icon.png"⟩
  else
    ⟨"Invalid session name \"" ++ query ++ "\"",
     some "Session names cannot contain spaces, dots, or colons",
     none, some false, none, none⟩

/-- `create_empty_state_prompt` from the script. -/
def create_empty_state_prompt : AlfredItem :=
  ⟨"No tmux sessions found",
   some "Start typing to create a new session",
   none, some false, none, none⟩

/-- The filter of `filter_and_sort_sessions`:
`not query or query.lower() in s.name.lower()`. -/
def sessionMatches (query : String) (s : Session) : Bool :=
  decide (query = "") || pyContains (pyLower s.name) (pyLower query)

/-- First component of the Python sort key `not s.is_attached`. -/
def keyAtt (s : Session) : Bool := !s.is_attached

/-- Second component of the Python sort key `-s.activity_timestamp`. -/
def keyAct (s : Session) : Int := -s.activity_timestamp

/-- Third component of the Python sort key `s.name.lower()`. -/
def keyName (s : Session) : List Char := pyLowerL s.name.data

/-- Python `bool < bool` (False < True). -/
def boolLt (x y : Bool) : Bool := !x && y

/-- Python `str < str`: lexicographic comparison by code point. -/
def lexLtCh : List Char → List Char → Bool
  | [], [] => false
  | [], _ :: _ => true
  | _ :: _, [] => false
  | a :: as, b :: bs => if a < b then true else if b < a then false else lexLtCh as bs

/-- Python tuple `<` on the sort key
`(not s.is_attached, -s.activity_timestamp, s.name.lower())`. -/
def keyLt (a b : Session) : Bool :=
  boolLt (keyAtt a) (keyAtt b) ||
    (keyAtt a == keyAtt b &&
      (decide (keyAct a < keyAct b) ||
        (keyAct a == keyAct b && lexLtCh (keyName a) (keyName b))))

/-- The non-strict order `sorted` realizes: `a` may stay before `b` exactly
when `key b < key a` fails. -/
def sessLeB (a b : Session) : Bool := !keyLt b a

/-- `filter_and_sort_sessions` from the script.  Python's `sorted` is a
stable sort by the key tuple; a stable sort w.r.t. a total preorder has a
unique result, so the stable `List.insertionSort` with the key order is the
same function. -/
def filter_and_sort_sessions (sessions : List Session) (query : String) :
    List Session :=
  List.insertionSort (fun a b => sessLeB a b = true)
    (sessions.filter (sessionMatches query))

/-- `main` from the script.  `query` is `sys.argv[1].strip()` (or `""`),
`src` is the result of the `get_tmux_sessions()` call (or the exception it
raised), `now` is the wall clock used by the subtitles.  The returned list
is the `items` array of the single JSON document printed to stdout
(`json.dumps` always yields one well-formed document for these values). -/
def main (now : Int) (query : String) (src : Except PyErr (List Session)) :
    List AlfredItem :=
  match src with
  | .ok sessions =>
      let items := (filter_and_sort_sessions sessions query).map (to_alfred_item now)
      if items.isEmpty then
        if query = "" then [create_empty_state_prompt]
        else [create_session_prompt query]
      else items
  | .error .fileNotFound =>
      [⟨"tmux not found", some "Install tmux: brew install tmux",
        none, some false, none, none⟩]
  | .error (.other msg) =>
      [⟨"Unexpected error", some msg, none, some false, none, none⟩]

/-- Python `"|".join(fields)`, used to state that extra fields are ignored. -/
def joinCh (sep : Char) : List (List Char) → List Char
  | [] => []
  | [f] => f
  | f :: rest => f ++ sep :: joinCh sep rest

/-- `"|".join` on strings. -/
def joinBar (fields : List String) : String :=
  ⟨joinCh '|' (fields.map String.data)⟩


theorem bool_not_eq_true {x : Bool} (h : (!x) = true) : x = false := by
  cases x <;> simp_all

theorem bool_eq_true_of_ne_false {x : Bool} (h : ¬ x = false) : x = true := by
  cases x <;> simp_all

theorem last_o_ne_unknown (x u : String) (hne : u.data ≠ [])
    (hlast : u.data.getLast? = some 'o') : x ++ u ≠ "unknown" := by
  intro he
  have h2 : (x ++ u).data.getLast? = ("unknown" : String).data.getLast? := by rw [he]
  rw [String.data_append, List.getLast?_append_of_ne_nil _ hne, hlast] at h2
  exact absurd h2 (by decide)

/-- C4: `get_tmux_sessions` raises a failure if and only if the tmux
executable is absent; a nonzero exit status and a timeout each yield the
empty session list rather than an error; otherwise every line of the
stripped stdout that parses to a `Session` contributes exactly one `Session`
to the result, in line order (an empty stripped stdout returns `[]` early,
which coincides with parsing the single empty line). -/
theorem get_tmux_sessions_failure_policy : ∀ o : CmdOutcome,
    ((get_tmux_sessions o = .error .fileNotFound) ↔ o = .execMissing)
    ∧ get_tmux_sessions .nonzeroExit = .ok []
    ∧ get_tmux_sessions .timedOut = .ok []
    ∧ ∀ out, get_tmux_sessions (.success out) =
        .ok ((pySplit (pyStrip out) '\n').filterMap parse_session_line) := by
  intro o
  refine ⟨?_, rfl, rfl, ?_⟩
  · cases o with
    | success out =>
        constructor
        · intro h
          simp only [get_tmux_sessions] at h
          split at h <;> exact absurd h (by simp)
        · intro h
          exact absurd h (by simp)
    | nonzeroExit => constructor <;> intro h <;> exact absurd h (by simp [get_tmux_sessions])
    | timedOut => constructor <;> intro h <;> exact absurd h (by simp [get_tmux_sessions])
    | execMissing => constructor <;> intro _ <;> rfl
  · intro out
    simp only [get_tmux_sessions]
    split
    · rename_i h
      rw [h]
      decide
    · rfl

/-- C3: the entry point produces exactly one (nonempty) items document per
invocation: the missing-executable failure yields the single non-actionable
tmux-not-found item with installation guidance, any other exception yields
the single non-actionable unexpected-error item whose subtitle is the
exception's description, and `main` is a total function (it never
propagates a failure without producing output). -/
theorem main_error_paths_total : ∀ (now : Int) (query : String),
    main now query (.error .fileNotFound) =
      [⟨"tmux not found", some "Install tmux: brew install tmux",
        none, some false, none, none⟩]
    ∧ (∀ msg, main now query (.error (.other msg)) =
        [⟨"Unexpected error", some msg, none, some false, none, none⟩])
    ∧ ∀ src, main now query src ≠ [] := by
  intro now query
  refine ⟨rfl, fun _ => rfl, ?_⟩
  intro src
  match src with
  | .error .fileNotFound => simp [main]
  | .error (.other msg) => simp [main]
  | .ok sessions =>
      simp only [main]
      split
      · split <;> simp
      · rename_i h
        intro hnil
        rw [hnil] at h
        exact h rfl

/-- C7: `is_valid_session_name` returns true iff the candidate is nonempty
and contains no space, tab, newline, period, or colon; in particular it
returns false for the empty string, and it is a total function on
strings. -/
theorem is_valid_session_name_correct : ∀ name : String,
    ((is_valid_session_name name = true) ↔
      (name ≠ "" ∧ ∀ c ∈ name.data,
        c ≠ ' ' ∧ c ≠ '\t' ∧ c ≠ '\n' ∧ c ≠ '.' ∧ c ≠ ':'))
    ∧ is_valid_session_name "" = false := by
  intro name
  refine ⟨?_, by decide⟩
  unfold is_valid_session_name INVALID_SESSION_CHARS
  simp only [Bool.and_eq_true, Bool.not_eq_true', decide_eq_false_iff_not,
    List.any_eq_false, List.mem_cons, List.not_mem_nil]
  constructor
  · rintro ⟨h1, h2⟩
    refine ⟨h1, ?_⟩
    intro c hc
    refine ⟨?_, ?_, ?_, ?_, ?_⟩ <;> rintro rfl
    · exact h2 ' ' (by decide) (List.elem_iff.mpr hc)
    · exact h2 '\t' (by decide) (List.elem_iff.mpr hc)
    · exact h2 '\n' (by decide) (List.elem_iff.mpr hc)
    · exact h2 '.' (by decide) (List.elem_iff.mpr hc)
    · exact h2 ':' (by decide) (List.elem_iff.mpr hc)
  · rintro ⟨h1, h2⟩
    refine ⟨h1, ?_⟩
    rintro x hx hcont
    have hmem : x ∈ name.data := List.elem_iff.mp hcont
    have hcs := h2 x hmem
    rcases hx with rfl | rfl | rfl | rfl | rfl | hfalse
    · exact hcs.2.2.2.1 rfl
    · exact hcs.2.2.2.2 rfl
    · exact hcs.1 rfl
    · exact hcs.2.2.1 rfl
    · exact hcs.2.1 rfl
    · exact hfalse

theorem lexLtCh_irrefl (a : List Char) : lexLtCh a a = false := by
  induction a with
  | nil => rfl
  | cons c l ih => simp [lexLtCh, lt_irrefl, ih]

theorem lexLtCh_asymm : ∀ a b, lexLtCh a b = true → lexLtCh b a = false := by
  intro a
  induction a with
  | nil =>
      intro b h
      cases b with
      | nil => simp [lexLtCh] at h
      | cons d m => rfl
  | cons c l ih =>
      intro b h
      cases b with
      | nil => simp [lexLtCh] at h
      | cons d m =>
          simp only [lexLtCh] at h ⊢
          by_cases h1 : c < d
          · rw [if_neg (lt_asymm h1), if_pos h1]
          · by_cases h2 : d < c
            · rw [if_neg h1, if_pos h2] at h
              simp at h
            · rw [if_neg h1, if_neg h2] at h
              rw [if_neg h2, if_neg h1]
              exact ih m h

theorem lexLtCh_trans : ∀ a b c, lexLtCh a b = true → lexLtCh b c = true → lexLtCh a c = true := by
  intro a
  induction a with
  | nil =>
      intro b c hab hbc
      cases b with
      | nil => simp [lexLtCh] at hab
      | cons d m =>
          cases c with
          | nil => simp [lexLtCh] at hbc
          | cons e k => simp [lexLtCh]
  | cons x xs ih =>
      intro b c hab hbc
      cases b with
      | nil => simp [lexLtCh] at hab
      | cons y ys =>
          cases c with
          | nil => simp [lexLtCh] at hbc
          | cons z zs =>
              simp only [lexLtCh] at hab hbc ⊢
              by_cases h1 : x < y
              · by_cases h2 : y < z
                · rw [if_pos (lt_trans h1 h2)]
                · by_cases h3 : z < y
                  · rw [if_neg h2, if_pos h3] at hbc
                    simp at hbc
                  · have hyz : y = z := le_antisymm (not_lt.mp h3) (not_lt.mp h2)
                    rw [if_pos (hyz ▸ h1)]
              · by_cases h1b : y < x
                · rw [if_neg h1, if_pos h1b] at hab
                  simp at hab
                · have hxy : x = y := le_antisymm (not_lt.mp h1b) (not_lt.mp h1)
                  rw [if_neg h1, if_neg h1b] at hab
                  subst hxy
                  by_cases h2 : x < z
                  · rw [if_pos h2]
                  · by_cases h3 : z < x
                    · rw [if_neg h2, if_pos h3] at hbc
                      simp at hbc
                    · rw [if_neg h2, if_neg h3] at hbc
                      rw [if_neg h2, if_neg h3]
                      exact ih ys zs hab hbc

theorem lexLtCh_trichot : ∀ a b, lexLtCh a b = true ∨ a = b ∨ lexLtCh b a = true := by
  intro a
  induction a with
  | nil =>
      intro b
      cases b with
      | nil => exact Or.inr (Or.inl rfl)
      | cons d m => exact Or.inl (by simp [lexLtCh])
  | cons c l ih =>
      intro b
      cases b with
      | nil => exact Or.inr (Or.inr (by simp [lexLtCh]))
      | cons d m =>
          rcases lt_trichotomy c d with h | h | h
          · exact Or.inl (by simp [lexLtCh, h])
          · subst h
            rcases ih m with h2 | h2 | h2
            · exact Or.inl (by simp [lexLtCh, lt_irrefl, h2])
            · exact Or.inr (Or.inl (by rw [h2]))
            · exact Or.inr (Or.inr (by simp [lexLtCh, lt_irrefl, h2]))
          · exact Or.inr (Or.inr (by simp [lexLtCh, h]))

theorem keyLt_iff (a b : Session) : keyLt a b = true ↔
    ((keyAtt a = false ∧ keyAtt b = true)
      ∨ (keyAtt a = keyAtt b ∧ (keyAct a < keyAct b
          ∨ (keyAct a = keyAct b ∧ lexLtCh (keyName a) (keyName b) = true)))) := by
  unfold keyLt boolLt
  cases hA : keyAtt a <;> cases hB : keyAtt b <;> simp

theorem keyLt_irrefl (a : Session) : keyLt a a = false := by
  unfold keyLt boolLt
  simp [lexLtCh_irrefl, lt_irrefl]

theorem keyLt_asymm {a b : Session} (h : keyLt a b = true) : keyLt b a = false := by
  rw [keyLt_iff] at h
  by_contra hcb
  have hc : keyLt b a = true := bool_eq_true_of_ne_false hcb
  rw [keyLt_iff] at hc
  rcases h with ⟨h1, h2⟩ | ⟨h1, h2⟩ <;> rcases hc with ⟨g1, g2⟩ | ⟨g1, g2⟩
  · rw [h1] at g2
    exact absurd g2 (by decide)
  · rw [h1, h2] at g1
    exact absurd g1 (by decide)
  · rw [g1, g2] at h1
    exact absurd h1 (by decide)
  · rcases h2 with h2 | ⟨h2e, h2l⟩ <;> rcases g2 with g2 | ⟨g2e, g2l⟩
    · omega
    · omega
    · omega
    · rw [lexLtCh_asymm _ _ h2l] at g2l
      exact absurd g2l (by decide)

theorem keyLt_trans {a b c : Session} (hab : keyLt a b = true) (hbc : keyLt b c = true) :
    keyLt a c = true := by
  rw [keyLt_iff] at hab hbc ⊢
  rcases hab with ⟨h1, h2⟩ | ⟨h1, h2⟩ <;> rcases hbc with ⟨g1, g2⟩ | ⟨g1, g2⟩
  · rw [h2] at g1
    exact absurd g1 (by decide)
  · exact Or.inl ⟨h1, g1 ▸ h2⟩
  · exact Or.inl ⟨h1.trans g1, g2⟩
  · refine Or.inr ⟨h1.trans g1, ?_⟩
    rcases h2 with h2 | ⟨h2e, h2l⟩ <;> rcases g2 with g2 | ⟨g2e, g2l⟩
    · exact Or.inl (by omega)
    · exact Or.inl (by omega)
    · exact Or.inl (by omega)
    · exact Or.inr ⟨by omega, lexLtCh_trans _ _ _ h2l g2l⟩

theorem keyLt_trichot (a b : Session) : keyLt a b = true
    ∨ (keyAtt a = keyAtt b ∧ keyAct a = keyAct b ∧ keyName a = keyName b)
    ∨ keyLt b a = true := by
  by_cases hA : keyAtt a = keyAtt b
  · rcases lt_trichotomy (keyAct a) (keyAct b) with h | h | h
    · exact Or.inl ((keyLt_iff a b).mpr (Or.inr ⟨hA, Or.inl h⟩))
    · rcases lexLtCh_trichot (keyName a) (keyName b) with h2 | h2 | h2
      · exact Or.inl ((keyLt_iff a b).mpr (Or.inr ⟨hA, Or.inr ⟨h, h2⟩⟩))
      · exact Or.inr (Or.inl ⟨hA, h, h2⟩)
      · exact Or.inr (Or.inr ((keyLt_iff b a).mpr (Or.inr ⟨hA.symm, Or.inr ⟨h.symm, h2⟩⟩)))
    · exact Or.inr (Or.inr ((keyLt_iff b a).mpr (Or.inr ⟨hA.symm, Or.inl h⟩)))
  · cases hx : keyAtt a <;> cases hy : keyAtt b
    · rw [hx, hy] at hA
      exact absurd rfl hA
    · exact Or.inl ((keyLt_iff a b).mpr (Or.inl ⟨hx, hy⟩))
    · exact Or.inr (Or.inr ((keyLt_iff b a).mpr (Or.inl ⟨hy, hx⟩)))
    · rw [hx, hy] at hA
      exact absurd rfl hA

theorem keyLt_congr {a b : Session} (hA : keyAtt a = keyAtt b) (hC : keyAct a = keyAct b)
    (hN : keyName a = keyName b) (x : Session) : keyLt x a = keyLt x b := by
  unfold keyLt
  rw [hA, hC, hN]

theorem sessLe_total (a b : Session) : sessLeB a b = true ∨ sessLeB b a = true := by
  unfold sessLeB
  rcases keyLt_trichot a b with h | ⟨h1, h2, h3⟩ | h
  · left
    rw [keyLt_asymm h]
    rfl
  · left
    rw [keyLt_congr h1 h2 h3 b, keyLt_irrefl]
    rfl
  · right
    rw [keyLt_asymm h]
    rfl

theorem sessLe_trans (a b c : Session) (h1 : sessLeB a b = true) (h2 : sessLeB b c = true) :
    sessLeB a c = true := by
  unfold sessLeB at *
  have h1f : keyLt b a = false := bool_not_eq_true h1
  have h2f : keyLt c b = false := bool_not_eq_true h2
  by_contra hcc
  have hca : keyLt c a = true := by
    revert hcc
    cases hcv : keyLt c a <;> simp
  rcases keyLt_trichot a b with h | ⟨hA, hC, hN⟩ | h
  · rw [keyLt_trans hca h] at h2f
    exact absurd h2f (by decide)
  · rw [keyLt_congr hA hC hN c] at hca
    rw [hca] at h2f
    exact absurd h2f (by decide)
  · rw [h] at h1f
    exact absurd h1f (by decide)

theorem sessLe_decomp {a b : Session} (h : sessLeB a b = true) :
    (b.is_attached = true → a.is_attached = true)
    ∧ (a.is_attached = b.is_attached → b.activity_timestamp ≤ a.activity_timestamp)
    ∧ (a.is_attached = b.is_attached → a.activity_timestamp = b.activity_timestamp →
        lexLtCh (pyLowerL b.name.data) (pyLowerL a.name.data) = false) := by
  unfold sessLeB at h
  have hf : keyLt b a = false := bool_not_eq_true h
  have hP : ¬ ((keyAtt b = false ∧ keyAtt a = true)
      ∨ (keyAtt b = keyAtt a ∧ (keyAct b < keyAct a
          ∨ (keyAct b = keyAct a ∧ lexLtCh (keyName b) (keyName a) = true)))) := by
    intro hp
    rw [(keyLt_iff b a).mpr hp] at hf
    exact absurd hf (by decide)
  obtain ⟨hP1, hP2⟩ := not_or.mp hP
  refine ⟨?_, ?_, ?_⟩
  · intro hb
    by_contra ha
    have haf : a.is_attached = false := by
      revert ha
      cases a.is_attached <;> simp
    exact hP1 ⟨by simp [keyAtt, hb], by simp [keyAtt, haf]⟩
  · intro heq
    by_contra hlt
    apply hP2
    refine ⟨by simp [keyAtt, heq], Or.inl ?_⟩
    unfold keyAct
    omega
  · intro heq hact
    by_contra hlex
    have hlex2 : lexLtCh (pyLowerL b.name.data) (pyLowerL a.name.data) = true := by
      revert hlex
      cases lexLtCh (pyLowerL b.name.data) (pyLowerL a.name.data) <;> simp
    apply hP2
    refine ⟨by simp [keyAtt, heq], Or.inr ⟨by unfold keyAct; omega, ?_⟩⟩
    unfold keyName
    exact hlex2

/-- C2: `filter_and_sort_sessions` returns exactly the sessions whose name
contains the query as a case-insensitive substring (every session when the
query is empty) - as a permutation of the filtered input and a membership
characterization - ordered so that attached sessions strictly precede
detached ones, activity timestamps are non-increasing within equal
attachment status, and remaining ties are in case-insensitive lexicographic
order of name. -/
theorem filter_and_rank_correct : ∀ (sessions : List Session) (query : String),
    (filter_and_sort_sessions sessions query).Perm (sessions.filter (sessionMatches query))
    ∧ (∀ s, s ∈ filter_and_sort_sessions sessions query ↔
        (s ∈ sessions ∧ (query = "" ∨ pyContains (pyLower s.name) (pyLower query) = true)))
    ∧ List.Pairwise (fun a b =>
        (b.is_attached = true → a.is_attached = true)
        ∧ (a.is_attached = b.is_attached → b.activity_timestamp ≤ a.activity_timestamp)
        ∧ (a.is_attached = b.is_attached → a.activity_timestamp = b.activity_timestamp →
            lexLtCh (pyLowerL b.name.data) (pyLowerL a.name.data) = false))
      (filter_and_sort_sessions sessions query) := by
  intro sessions query
  have hperm : (filter_and_sort_sessions sessions query).Perm
      (sessions.filter (sessionMatches query)) := List.perm_insertionSort _ _
  refine ⟨hperm, ?_, ?_⟩
  · intro s
    rw [hperm.mem_iff, List.mem_filter]
    unfold sessionMatches
    simp
  · have hs := @List.sorted_insertionSort Session (fun a b => sessLeB a b = true) _
      ⟨sessLe_total⟩ ⟨sessLe_trans⟩ (sessions.filter (sessionMatches query))
    exact List.Pairwise.imp (fun hab => sessLe_decomp hab) hs


theorem format_time_ago_eq_spec (now timestamp : Int) (hv : ts_valid timestamp = true)
    (hle : timestamp ≤ now) :
    format_time_ago now timestamp = format_time_ago_spec now timestamp := by
  unfold format_time_ago format_time_ago_spec
  rw [if_pos hv, if_pos hv]
  by_cases h1 : (now - timestamp) / 86400 > 0
  · rw [if_pos h1, if_pos (by omega : (now - timestamp) / 86400 ≥ 1)]
  · rw [if_neg h1, if_neg (by omega : ¬ (now - timestamp) / 86400 ≥ 1)]
    have hmod : (now - timestamp) % 86400 = now - timestamp := by omega
    rw [hmod]
    by_cases h2 : (now - timestamp) / 3600 > 0
    · rw [if_pos h2, if_pos (by omega : (now - timestamp) / 3600 ≥ 1)]
    · rw [if_neg h2, if_neg (by omega : ¬ (now - timestamp) / 3600 ≥ 1)]
      by_cases h3 : (now - timestamp) / 60 > 0
      · rw [if_pos h3, if_pos (by omega : (now - timestamp) / 60 ≥ 1)]
      · rw [if_neg h3, if_neg (by omega : ¬ (now - timestamp) / 60 ≥ 1)]

/-- C6 (amended): `format_time_ago` never raises and always returns one of
"{N}d ago", "{N}h ago", "{N}m ago", "just now", or "unknown"; it returns
"unknown" exactly when the timestamp is invalid; and for valid timestamps
not later than the reference time it agrees with the spec's largest-unit
rule (`format_time_ago_spec`).  For future timestamps the timedelta
normalization can produce results like "23h ago", as the counterexample
shows. -/
theorem format_time_ago_amended : ∀ now timestamp : Int,
    ((∃ n : Int, 0 < n ∧ format_time_ago now timestamp = toString n ++ "d ago")
      ∨ (∃ n : Int, 0 < n ∧ format_time_ago now timestamp = toString n ++ "h ago")
      ∨ (∃ n : Int, 0 < n ∧ format_time_ago now timestamp = toString n ++ "m ago")
      ∨ format_time_ago now timestamp = "just now"
      ∨ format_time_ago now timestamp = "unknown")
    ∧ ((format_time_ago now timestamp = "unknown") ↔ ts_valid timestamp = false)
    ∧ (ts_valid timestamp = true → timestamp ≤ now →
        format_time_ago now timestamp = format_time_ago_spec now timestamp) := by
  intro now timestamp
  have hshape : (∃ n : Int, 0 < n ∧ format_time_ago now timestamp = toString n ++ "d ago")
      ∨ (∃ n : Int, 0 < n ∧ format_time_ago now timestamp = toString n ++ "h ago")
      ∨ (∃ n : Int, 0 < n ∧ format_time_ago now timestamp = toString n ++ "m ago")
      ∨ format_time_ago now timestamp = "just now"
      ∨ format_time_ago now timestamp = "unknown" := by
    unfold format_time_ago
    by_cases hv : ts_valid timestamp = true
    · rw [if_pos hv]
      by_cases h1 : (now - timestamp) / 86400 > 0
      · rw [if_pos h1]
        exact Or.inl ⟨_, h1, rfl⟩
      · rw [if_neg h1]
        by_cases h2 : ((now - timestamp) % 86400) / 3600 > 0
        · rw [if_pos h2]
          exact Or.inr (Or.inl ⟨_, h2, rfl⟩)
        · rw [if_neg h2]
          by_cases h3 : ((now - timestamp) % 86400) / 60 > 0
          · rw [if_pos h3]
            exact Or.inr (Or.inr (Or.inl ⟨_, h3, rfl⟩))
          · rw [if_neg h3]
            exact Or.inr (Or.inr (Or.inr (Or.inl rfl)))
    · rw [if_neg hv]
      exact Or.inr (Or.inr (Or.inr (Or.inr rfl)))
  refine ⟨hshape, ⟨?_, ?_⟩, format_time_ago_eq_spec now timestamp⟩
  · intro he
    by_contra hnf
    have hv : ts_valid timestamp = true := bool_eq_true_of_ne_false hnf
    rcases hshape with ⟨n, hn, hs⟩ | ⟨n, hn, hs⟩ | ⟨n, hn, hs⟩ | hs | hs
    · exact last_o_ne_unknown (toString n) "d ago" (by decide) (by decide) (hs ▸ he)
    · exact last_o_ne_unknown (toString n) "h ago" (by decide) (by decide) (hs ▸ he)
    · exact last_o_ne_unknown (toString n) "m ago" (by decide) (by decide) (hs ▸ he)
    · rw [hs] at he
      exact absurd he (by decide)
    · unfold format_time_ago at hs
      rw [if_pos hv] at hs
      revert hs
      by_cases h1 : (now - timestamp) / 86400 > 0
      · rw [if_pos h1]
        exact last_o_ne_unknown _ "d ago" (by decide) (by decide)
      · rw [if_neg h1]
        by_cases h2 : ((now - timestamp) % 86400) / 3600 > 0
        · rw [if_pos h2]
          exact last_o_ne_unknown _ "h ago" (by decide) (by decide)
        · rw [if_neg h2]
          by_cases h3 : ((now - timestamp) % 86400) / 60 > 0
          · rw [if_pos h3]
            exact last_o_ne_unknown _ "m ago" (by decide) (by decide)
          · rw [if_neg h3]
            intro hs
            exact absurd hs (by decide)
  · intro hf
    unfold format_time_ago
    rw [if_neg (by rw [hf]; exact Bool.false_ne_true)]

/-- C6 counterexample: at the valid timestamp 10 seconds in the future of
the injected now, every unit (days, hours, minutes) of the elapsed time is
below 1, yet `format_time_ago` returns "23h ago" instead of "just now"
(Python timedelta normalization makes `delta.seconds` large for negative
differences), so the largest-unit rule of the claim fails. -/
theorem format_time_ago_future_counterexample :
    format_time_ago 1700000000 1700000010 = "23h ago"
    ∧ ts_valid 1700000010 = true
    ∧ ((1700000000 - 1700000010 : Int) / 86400 < 1
        ∧ (1700000000 - 1700000010 : Int) / 3600 < 1
        ∧ (1700000000 - 1700000010 : Int) / 60 < 1)
    ∧ format_time_ago_spec 1700000000 1700000010 = "just now" := by decide

/-- C6 witness: the amended theorem applied at now = 1700007200 and
timestamp = 1700000000 (a valid past timestamp). -/
theorem format_time_ago_witness :
    ts_valid 1700000000 = true ∧
      format_time_ago 1700007200 1700000000 = format_time_ago_spec 1700007200 1700000000 :=
  ⟨by decide, (format_time_ago_amended 1700007200 1700000000).2.2 (by decide) (by decide)⟩

theorem parse_eq_of_len (line : String) (h5 : 5 ≤ (pySplit line '|').length) :
    parse_session_line line =
      match (if pyIsdigit ((pySplit line '|').getD 4 "") then
               some (digitsToInt ((pySplit line '|').getD 4 ""))
             else pyInt ((pySplit line '|').getD 2 "")) with
      | some a =>
          some ⟨(pySplit line '|').getD 0 "",
                (if pyIsdigit ((pySplit line '|').getD 1 "") then
                   digitsToInt ((pySplit line '|').getD 1 "") else 1),
                (if pyIsdigit ((pySplit line '|').getD 2 "") then
                   digitsToInt ((pySplit line '|').getD 2 "") else 0),
                ((pySplit line '|').getD 3 "" == "1"), a⟩
      | none => none := by
  have hne : line ≠ "" := by
    intro h
    rw [h] at h5
    revert h5
    decide
  simp only [parse_session_line, if_neg hne,
    if_neg (by omega : ¬ (pySplit line '|').length < 5)]

theorem isDigit_not_ws {c : Char} (h : c.isDigit = true) : isPyWs c = false := by
  unfold isPyWs
  by_contra hc
  have hc2 := bool_eq_true_of_ne_false hc
  simp only [Bool.or_eq_true, decide_eq_true_eq] at hc2
  rcases hc2 with ((((h1 | h1) | h1) | h1) | h1) | h1 <;> subst h1 <;> exact absurd h (by decide)

theorem dropWhile_all_false {p : Char → Bool} {cs : List Char}
    (h : ∀ c ∈ cs, p c = false) : cs.dropWhile p = cs := by
  cases cs with
  | nil => rfl
  | cons a l =>
      have ha := h a (by simp)
      simp [List.dropWhile_cons, ha]

theorem pyStripL_all_digits {cs : List Char} (h : ∀ c ∈ cs, c.isDigit = true) :
    pyStripL cs = cs := by
  unfold pyStripL
  have hws : ∀ c ∈ cs, isPyWs c = false := fun c hc => isDigit_not_ws (h c hc)
  rw [dropWhile_all_false hws,
    dropWhile_all_false (fun c hc => hws c (List.mem_reverse.mp hc)),
    List.reverse_reverse]

theorem pyDigitsRest_all : ∀ (cs : List Char) (acc : Nat), (∀ c ∈ cs, c.isDigit = true) →
    pyDigitsRest acc cs = some (cs.foldl (fun a c => a * 10 + (c.toNat - 48)) acc) := by
  intro cs
  induction cs with
  | nil => intro acc _; rfl
  | cons a l ih =>
      intro acc h
      have ha : a.isDigit = true := h a (by simp)
      rw [List.foldl_cons, pyDigitsRest.eq_def]
      simp only [ha, if_true]
      exact ih _ (fun c hc => h c (by simp [hc]))

theorem pyInt_of_digits (s : String) (h : pyIsdigit s = true) :
    pyInt s = some (digitsToInt s) := by
  unfold pyIsdigit at h
  simp only [Bool.and_eq_true, Bool.not_eq_true', List.all_eq_true] at h
  obtain ⟨hne, hall⟩ := h
  have hd : ∀ c ∈ s.data, c.isDigit = true := fun c hc => hall c hc
  have hstrip : pyStripL s.data = s.data := pyStripL_all_digits hd
  unfold pyInt
  rw [hstrip]
  cases hcs : s.data with
  | nil =>
      rw [hcs] at hne
      exact absurd hne (by decide)
  | cons a l =>
      have ha : a.isDigit = true := hd a (by rw [hcs]; exact List.mem_cons_self a l)
      have hna : a ≠ '+' := fun he => by rw [he] at ha; exact absurd ha (by decide)
      have hnm : a ≠ '-' := fun he => by rw [he] at ha; exact absurd ha (by decide)
      split
      · rename_i cs heq
        exact absurd (List.cons.inj heq).1 hna
      · rename_i cs heq
        exact absurd (List.cons.inj heq).1 hnm
      · simp only [pyNatDigits, ha, if_true]
        rw [pyDigitsRest_all l _ (fun c hc => hd c (by rw [hcs]; exact List.mem_cons_of_mem a hc))]
        unfold digitsToInt digitsVal
        rw [hcs, List.foldl_cons]
        simp

theorem parse_line_char (line : String) (h5 : 5 ≤ (pySplit line '|').length) :
    ((parse_session_line line).isSome ↔
      (pyIsdigit ((pySplit line '|').getD 4 "") = true
        ∨ (pyInt ((pySplit line '|').getD 2 "")).isSome = true))
    ∧ ∀ s, parse_session_line line = some s →
        s.name = (pySplit line '|').getD 0 ""
        ∧ (s.windows = if pyIsdigit ((pySplit line '|').getD 1 "") then
            digitsToInt ((pySplit line '|').getD 1 "") else 1)
        ∧ (s.created_timestamp = if pyIsdigit ((pySplit line '|').getD 2 "") then
            digitsToInt ((pySplit line '|').getD 2 "") else 0)
        ∧ s.is_attached = ((pySplit line '|').getD 3 "" == "1")
        ∧ (pyIsdigit ((pySplit line '|').getD 4 "") = true →
            s.activity_timestamp = digitsToInt ((pySplit line '|').getD 4 ""))
        ∧ (pyIsdigit ((pySplit line '|').getD 4 "") = false →
            pyInt ((pySplit line '|').getD 2 "") = some s.activity_timestamp)
        ∧ (pyIsdigit ((pySplit line '|').getD 2 "") = true →
            pyIsdigit ((pySplit line '|').getD 4 "") = false →
            s.activity_timestamp = s.created_timestamp) := by
  rw [parse_eq_of_len line h5]
  by_cases h4 : pyIsdigit ((pySplit line '|').getD 4 "") = true
  · rw [if_pos h4]
    constructor
    · constructor
      · intro _
        exact Or.inl h4
      · intro _
        rfl
    · intro s hs
      obtain rfl := (Option.some.inj hs).symm
      refine ⟨rfl, rfl, rfl, rfl, fun _ => rfl, ?_, ?_⟩
      · intro hf
        rw [h4] at hf
        exact absurd hf (by decide)
      · intro _ hf
        rw [h4] at hf
        exact absurd hf (by decide)
  · have h4f : pyIsdigit ((pySplit line '|').getD 4 "") = false := by
      revert h4
      cases pyIsdigit ((pySplit line '|').getD 4 "") <;> simp
    rw [if_neg (by simp only [h4f]; decide)]
    cases hint : pyInt ((pySplit line '|').getD 2 "") with
    | none =>
        constructor
        · constructor
          · intro habs
            exact absurd habs (by simp)
          · intro hor
            rcases hor with hor | hor
            · rw [h4f] at hor
              exact absurd hor (by decide)
            · exact absurd hor (by simp)
        · intro s hs
          exact absurd hs (by simp)
    | some v =>
        constructor
        · simp
        · intro s hs
          obtain rfl := (Option.some.inj hs).symm
          refine ⟨rfl, rfl, rfl, rfl, ?_, ?_, ?_⟩
          · intro h4t
            rw [h4f] at h4t
            exact absurd h4t (by decide)
          · intro _
            rfl
          · intro h2d _
            have hpd := pyInt_of_digits _ h2d
            rw [hpd] at hint
            have hv := Option.some.inj hint
            rw [if_pos h2d]
            exact hv.symm

/-- C1 counterexample: the five-field line "a|1|x|1|y" has a malformed
createdAt and a malformed activityAt, and `parse_session_line` rejects the
whole line (the fallback `int(parts[2])` raises), contradicting the claim
that no combination of malformed numeric subfields rejects the line. -/
theorem parse_line_rejects_double_malformed :
    (pySplit "a|1|x|1|y" '|').length = 5 ∧ parse_session_line "a|1|x|1|y" = none := by decide

/-- C1 (amended): for every line with at least five fields, a malformed
windowCount defaults to 1 and a malformed createdAt defaults to 0, but a
malformed activityAt falls back to `int(parts[2])` applied to the raw third
field: the line is accepted iff activityAt is all-digits or the raw third
field parses as a Python integer; when it is accepted with a malformed
activityAt, the activity value is `int(parts[2])` (which equals the
resolved createdAt whenever createdAt was itself all-digits); when both
activityAt is malformed and the third field is not an integer literal, the
line IS rejected. -/
theorem parse_line_malformed_fields_amended : ∀ line : String,
    5 ≤ (pySplit line '|').length →
    (((parse_session_line line).isSome ↔
        (pyIsdigit ((pySplit line '|').getD 4 "") = true
          ∨ (pyInt ((pySplit line '|').getD 2 "")).isSome = true))
      ∧ ∀ s, parse_session_line line = some s →
          (s.windows = if pyIsdigit ((pySplit line '|').getD 1 "") then
              digitsToInt ((pySplit line '|').getD 1 "") else 1)
          ∧ (s.created_timestamp = if pyIsdigit ((pySplit line '|').getD 2 "") then
              digitsToInt ((pySplit line '|').getD 2 "") else 0)
          ∧ (pyIsdigit ((pySplit line '|').getD 4 "") = true →
              s.activity_timestamp = digitsToInt ((pySplit line '|').getD 4 ""))
          ∧ (pyIsdigit ((pySplit line '|').getD 4 "") = false →
              pyInt ((pySplit line '|').getD 2 "") = some s.activity_timestamp)
          ∧ (pyIsdigit ((pySplit line '|').getD 2 "") = true →
              pyIsdigit ((pySplit line '|').getD 4 "") = false →
              s.activity_timestamp = s.created_timestamp)) := by
  intro line h5
  obtain ⟨hiff, hfields⟩ := parse_line_char line h5
  refine ⟨hiff, fun s hs => ?_⟩
  obtain ⟨_, hw, hc, _, ha1, ha2, ha3⟩ := hfields s hs
  exact ⟨hw, hc, ha1, ha2, ha3⟩

/-- C1 witness: the amended theorem applied to the concrete five-field line
"a|2|5|1|oops" whose activityAt is malformed. -/
theorem parse_line_malformed_fields_witness :
    (parse_session_line "a|2|5|1|oops").isSome ↔
      (pyIsdigit ((pySplit "a|2|5|1|oops" '|').getD 4 "") = true
        ∨ (pyInt ((pySplit "a|2|5|1|oops" '|').getD 2 "")).isSome = true) :=
  (parse_line_malformed_fields_amended "a|2|5|1|oops" (by decide)).1

/-- C5 counterexample: in "a|1|-5|1|7" the third field "-5" is a valid
integer literal (`int("-5")` is -5), yet the parsed session's createdAt is
0, because the code guards with `str.isdigit`, which rejects a leading
sign. -/
theorem created_negative_literal_counterexample :
    (pySplit "a|1|-5|1|7" '|').getD 2 "" = "-5"
    ∧ pyInt "-5" = some (-5)
    ∧ parse_session_line "a|1|-5|1|7" = some ⟨"a", 1, 0, true, 7⟩ := by decide

/-- C5 (amended): for every parsed line, createdAt equals the decimal value
of the third field exactly when that field is all-digits (a non-negative
integer literal); any other third field - including negative literals such
as "-5" - yields createdAt 0. -/
theorem created_digits_only_amended : ∀ line : String,
    5 ≤ (pySplit line '|').length → ∀ s, parse_session_line line = some s →
      s.created_timestamp = (if pyIsdigit ((pySplit line '|').getD 2 "") then
        digitsToInt ((pySplit line '|').getD 2 "") else 0) := by
  intro line h5 s hs
  exact ((parse_line_char line h5).2 s hs).2.2.1

/-- C5 witness: the amended theorem applied to the line "a|1|7|1|7", whose
parse is the session with createdAt 7. -/
theorem created_digits_only_witness :
    (⟨"a", 1, 7, true, 7⟩ : Session).created_timestamp =
      (if pyIsdigit ((pySplit "a|1|7|1|7" '|').getD 2 "") then
        digitsToInt ((pySplit "a|1|7|1|7" '|').getD 2 "") else 0) :=
  created_digits_only_amended "a|1|7|1|7" (by decide) ⟨"a", 1, 7, true, 7⟩ (by decide)

theorem mem_pySplitCh_no_sep (sep : Char) : ∀ (cs : List Char) (f : List Char),
    f ∈ pySplitCh sep cs → sep ∉ f := by
  intro cs
  induction cs with
  | nil =>
      intro f hf
      simp only [pySplitCh, List.mem_singleton] at hf
      subst hf
      simp
  | cons c l ih =>
      intro f hf
      simp only [pySplitCh] at hf
      by_cases hc : c = sep
      · rw [if_pos hc] at hf
        rcases List.mem_cons.mp hf with rfl | hm
        · simp
        · exact ih f hm
      · rw [if_neg hc] at hf
        cases hr : pySplitCh sep l with
        | nil =>
            rw [hr] at hf
            simp only [List.mem_singleton] at hf
            subst hf
            intro hmem
            simp only [List.mem_singleton] at hmem
            exact hc hmem.symm
        | cons g rest =>
            rw [hr] at hf
            rcases List.mem_cons.mp hf with rfl | hm
            · intro hmem
              rcases List.mem_cons.mp hmem with he | hm2
              · exact hc he.symm
              · exact ih g (by rw [hr]; exact List.mem_cons_self g rest) hm2
            · exact ih f (by rw [hr]; exact List.mem_cons_of_mem g hm)

theorem pySplitCh_no_sep_eq (sep : Char) : ∀ (cs : List Char), sep ∉ cs →
    pySplitCh sep cs = [cs] := by
  intro cs
  induction cs with
  | nil => intro _; rfl
  | cons c l ih =>
      intro h
      have hc : c ≠ sep := fun he => h (List.mem_cons.mpr (Or.inl he.symm))
      simp only [pySplitCh, if_neg hc]
      rw [ih (fun hm => h (List.mem_cons_of_mem c hm))]

theorem pySplitCh_append_sep (sep : Char) : ∀ (f t : List Char), sep ∉ f →
    pySplitCh sep (f ++ sep :: t) = f :: pySplitCh sep t := by
  intro f
  induction f with
  | nil =>
      intro t _
      simp [pySplitCh]
  | cons c g ih =>
      intro t h
      have hc : c ≠ sep := fun he => h (List.mem_cons.mpr (Or.inl he.symm))
      simp only [List.cons_append, pySplitCh, if_neg hc, List.append_eq]
      rw [ih t (fun hm => h (List.mem_cons_of_mem c hm))]

theorem pySplitCh_join (sep : Char) : ∀ (F : List (List Char)), F ≠ [] →
    (∀ f ∈ F, sep ∉ f) → pySplitCh sep (joinCh sep F) = F := by
  intro F
  induction F with
  | nil => intro h; exact absurd rfl h
  | cons f G ih =>
      intro _ hall
      cases G with
      | nil => exact pySplitCh_no_sep_eq sep f (hall f (List.mem_cons_self _ _))
      | cons g G2 =>
          rw [show joinCh sep (f :: g :: G2) = f ++ sep :: joinCh sep (g :: G2) from rfl]
          rw [pySplitCh_append_sep sep f _ (hall f (List.mem_cons_self _ _))]
          rw [ih (by simp) (fun x hx => hall x (List.mem_cons_of_mem f hx))]

theorem pySplitCh_head (sep : Char) : ∀ cs : List Char, ∃ rest,
    pySplitCh sep cs = (cs.takeWhile fun c => !decide (c = sep)) :: rest := by
  intro cs
  induction cs with
  | nil => exact ⟨[], rfl⟩
  | cons c l ih =>
      by_cases hc : c = sep
      · subst hc
        refine ⟨pySplitCh c l, ?_⟩
        simp [pySplitCh, List.takeWhile_cons]
      · obtain ⟨rest, hr⟩ := ih
        refine ⟨rest, ?_⟩
        simp only [pySplitCh, if_neg hc, hr, List.takeWhile_cons, decide_eq_true_eq, hc,
          Bool.not_false, if_true]
        simp [hc]

theorem pySplit_joinBar (F : List String) (hne : F ≠ [])
    (h : ∀ f ∈ F, '|' ∉ f.data) : pySplit (joinBar F) '|' = F := by
  unfold pySplit joinBar
  rw [show (String.mk (joinCh '|' (F.map String.data))).data = joinCh '|' (F.map String.data)
    from rfl]
  rw [pySplitCh_join '|' (F.map String.data) (by simpa using hne) ?hall]
  case hall =>
    intro f hf
    obtain ⟨g, hg, rfl⟩ := List.mem_map.mp hf
    exact h g hg
  rw [List.map_map]
  have hid : (String.mk ∘ String.data) = id := funext fun s => rfl
  rw [hid, List.map_id]

theorem getD_take_five (l : List String) (i : Nat) (hi : i < 5) :
    (l.take 5).getD i "" = l.getD i "" := by
  rw [List.getD_eq_getElem?_getD, List.getD_eq_getElem?_getD, List.getElem?_take_of_lt hi]

theorem isSubCh_nil : ∀ t : List Char, isSubCh [] t = true := by
  intro t
  cases t with
  | nil => rfl
  | cons h t2 => simp [isSubCh, isPrefCh]

theorem isPrefCh_append (n : List Char) : ∀ (h t : List Char), isPrefCh n h = true →
    isPrefCh n (h ++ t) = true := by
  induction n with
  | nil => intro h t _; rfl
  | cons a as ih =>
      intro h t hp
      cases h with
      | nil => simp [isPrefCh] at hp
      | cons b bs =>
          simp only [List.cons_append, isPrefCh, Bool.and_eq_true] at hp ⊢
          exact ⟨hp.1, ih bs t hp.2⟩

theorem isSubCh_append (n : List Char) : ∀ (h t : List Char), isSubCh n h = true →
    isSubCh n (h ++ t) = true := by
  intro h
  induction h with
  | nil =>
      intro t hs
      have hn : n = [] := by
        cases n with
        | nil => rfl
        | cons a as => simp [isSubCh] at hs
      subst hn
      rw [List.nil_append]
      exact isSubCh_nil t
  | cons c cs ih =>
      intro t hs
      simp only [isSubCh, Bool.or_eq_true] at hs
      simp only [List.cons_append, isSubCh, Bool.or_eq_true]
      rcases hs with hs | hs
      · refine Or.inl ?_
        have := isPrefCh_append n (c :: cs) t hs
        simpa using this
      · exact Or.inr (ih t hs)

/-- C10 counterexample: the six-field line "a|1|x|1|y|z" is rejected by
`parse_session_line` (the activity fallback `int("x")` raises), so a line
with more than five fields is not always accepted. -/
theorem extra_fields_reject_counterexample :
    (pySplit "a|1|x|1|y|z" '|').length = 6 ∧ parse_session_line "a|1|x|1|y|z" = none := by
  decide

/-- C10 (amended): for every line with more than five fields, parsing gives
the same result as parsing the line truncated to its first five fields
(everything after the fifth field is ignored), and any session produced has
as name exactly the text before the first delimiter; but such a line is
accepted only when the fifth field is all-digits or the third field parses
as a Python integer - otherwise it is rejected. -/
theorem extra_fields_ignored_amended : ∀ line : String,
    6 ≤ (pySplit line '|').length →
    (parse_session_line line = parse_session_line (joinBar ((pySplit line '|').take 5))
      ∧ (∀ s, parse_session_line line = some s →
          s.name = String.mk (line.data.takeWhile fun c => !decide (c = '|')))
      ∧ ((parse_session_line line).isSome ↔
          (pyIsdigit ((pySplit line '|').getD 4 "") = true
            ∨ (pyInt ((pySplit line '|').getD 2 "")).isSome = true))) := by
  intro line h6
  have h5 : 5 ≤ (pySplit line '|').length := by omega
  have hsub : ∀ f ∈ (pySplit line '|').take 5, '|' ∉ f.data := by
    intro f hf
    have hf2 : f ∈ pySplit line '|' := List.take_subset _ _ hf
    unfold pySplit at hf2
    obtain ⟨g, hg, rfl⟩ := List.mem_map.mp hf2
    exact mem_pySplitCh_no_sep '|' line.data g hg
  have htne : (pySplit line '|').take 5 ≠ [] := by
    have hlen : ((pySplit line '|').take 5).length = 5 := by
      rw [List.length_take]
      omega
    intro hnil
    rw [hnil] at hlen
    simp at hlen
  have hsplit : pySplit (joinBar ((pySplit line '|').take 5)) '|' = (pySplit line '|').take 5 :=
    pySplit_joinBar _ htne hsub
  have h5b : 5 ≤ (pySplit (joinBar ((pySplit line '|').take 5)) '|').length := by
    rw [hsplit, List.length_take]
    omega
  refine ⟨?_, ?_, (parse_line_char line h5).1⟩
  · rw [parse_eq_of_len line h5, parse_eq_of_len _ h5b, hsplit,
      getD_take_five _ 0 (by omega), getD_take_five _ 1 (by omega),
      getD_take_five _ 2 (by omega), getD_take_five _ 3 (by omega),
      getD_take_five _ 4 (by omega)]
  · intro s hs
    have hname := ((parse_line_char line h5).2 s hs).1
    rw [hname]
    unfold pySplit
    obtain ⟨rest, hr⟩ := pySplitCh_head '|' line.data
    rw [hr]
    rfl

/-- C10 witness: the amended theorem applied to the six-field line
"a|2|5|1|6|zzz". -/
theorem extra_fields_ignored_witness :
    parse_session_line "a|2|5|1|6|zzz" =
      parse_session_line (joinBar ((pySplit "a|2|5|1|6|zzz" '|').take 5)) :=
  (extra_fields_ignored_amended "a|2|5|1|6|zzz" (by decide)).1

/-- C9: whenever filtering yields zero sessions, `main` emits exactly one
fallback item determined by the query: a create prompt with arg
"create:"+query for a non-empty valid query, a non-actionable invalid-name
item for a non-empty invalid query, and the non-actionable
"No tmux sessions found" item for an empty query. -/
theorem fallback_items_correct : ∀ (now : Int) (query : String) (sessions : List Session),
    filter_and_sort_sessions sessions query = [] →
    ((query ≠ "" → is_valid_session_name query = true →
        main now query (.ok sessions) =
          [⟨"Create new session \"" ++ query ++ "\"",
            some "Press Enter to create this tmux session",
            some ("create:" ++ query), none, none, some "icon.png"⟩])
      ∧ (query ≠ "" → is_valid_session_name query = false →
          main now query (.ok sessions) =
            [⟨"Invalid session name \"" ++ query ++ "\"",
              some "Session names cannot contain spaces, dots, or colons",
              none, some false, none, none⟩])
      ∧ (query = "" →
          main now query (.ok sessions) =
            [⟨"No tmux sessions found", some "Start typing to create a new session",
              none, some false, none, none⟩])) := by
  intro now query sessions h
  refine ⟨?_, ?_, ?_⟩
  · intro hq hv
    simp only [main, h, List.map_nil, List.isEmpty_nil, if_true]
    rw [if_neg hq]
    unfold create_session_prompt
    rw [if_pos hv]
  · intro hq hv
    simp only [main, h, List.map_nil, List.isEmpty_nil, if_true]
    rw [if_neg hq]
    unfold create_session_prompt
    rw [if_neg (by simp [hv])]
  · intro hq
    subst hq
    simp only [main, h, List.map_nil, List.isEmpty_nil, if_true]
    rfl

/-- C9 witness: the claim theorem applied at query "newproj" with no
sessions. -/
theorem fallback_items_witness :
    main 0 "newproj" (.ok []) =
      [⟨"Create new session \"newproj\"", some "Press Enter to create this tmux session",
        some "create:newproj", none, none, some "icon.png"⟩] := by
  rw [(fallback_items_correct 0 "newproj" [] (by decide)).1 (by decide) (by decide)]
  decide

theorem work_session_contains_attached (now : Int) :
    pyContains (session_subtitle now ⟨"work", 3, 1700000000, true, 1700003600⟩) "attached" =
      true := by
  have e1 : status_emoji (⟨"work", 3, 1700000000, true, 1700003600⟩ : Session) =
      "🟢 attached" := rfl
  have e2 : toString ((⟨"work", 3, 1700000000, true, 1700003600⟩ : Session).windows) = "3" := by
    decide
  have hpre : isSubCh ("attached").data
      (("🟢 attached").data ++ ((" • ").data ++ (("3").data ++ (" windows • created ").data))) =
      true := by decide
  have key := isSubCh_append ("attached").data
    (("🟢 attached").data ++ ((" • ").data ++ (("3").data ++ (" windows • created ").data)))
    ((format_time_ago now 1700000000).data
      ++ ((" • active ").data ++ (format_time_ago now 1700003600).data)) hpre
  unfold pyContains session_subtitle
  rw [e1, e2]
  simp only [String.data_append, List.append_assoc]
  simpa [List.append_assoc] using key

theorem work_session_contains_windows (now : Int) :
    pyContains (session_subtitle now ⟨"work", 3, 1700000000, true, 1700003600⟩) "3 windows" =
      true := by
  have e1 : status_emoji (⟨"work", 3, 1700000000, true, 1700003600⟩ : Session) =
      "🟢 attached" := rfl
  have e2 : toString ((⟨"work", 3, 1700000000, true, 1700003600⟩ : Session).windows) = "3" := by
    decide
  have hpre : isSubCh ("3 windows").data
      (("🟢 attached").data ++ ((" • ").data ++ (("3").data ++ (" windows • created ").data))) =
      true := by decide
  have key := isSubCh_append ("3 windows").data
    (("🟢 attached").data ++ ((" • ").data ++ (("3").data ++ (" windows • created ").data)))
    ((format_time_ago now 1700000000).data
      ++ ((" • active ").data ++ (format_time_ago now 1700003600).data)) hpre
  unfold pyContains session_subtitle
  rw [e1, e2]
  simp only [String.data_append, List.append_assoc]
  simpa [List.append_assoc] using key

/-- C8: every session's Alfred item has title and primary arg equal to the
session name, a cmd modifier with arg "delete:"+name whose valid key is
absent (always enabled), and a ctrl modifier with arg "detach:"+name whose
valid flag equals the attachment status; and for the single parsed line
"work|3|1700000000|1|1700003600" with empty query, at every reference time
the pipeline yields exactly one item titled "work" with arg "work", whose
subtitle contains "attached" and "3 windows", cmd arg "delete:work", and
ctrl arg "detach:work" with valid true. -/
theorem to_alfred_item_correct :
    (∀ (now : Int) (s : Session),
        (to_alfred_item now s).title = s.name
        ∧ (to_alfred_item now s).arg = some s.name
        ∧ ((to_alfred_item now s).mods.map fun m => m.cmd.arg) = some ("delete:" ++ s.name)
        ∧ ((to_alfred_item now s).mods.map fun m => m.cmd.valid) = some none
        ∧ ((to_alfred_item now s).mods.map fun m => m.ctrl.arg) = some ("detach:" ++ s.name)
        ∧ ((to_alfred_item now s).mods.map fun m => m.ctrl.valid) = some (some s.is_attached))
    ∧ ∀ now : Int,
        main now "" (get_tmux_sessions (.success "work|3|1700000000|1|1700003600")) =
          [to_alfred_item now ⟨"work", 3, 1700000000, true, 1700003600⟩]
        ∧ (to_alfred_item now ⟨"work", 3, 1700000000, true, 1700003600⟩).title = "work"
        ∧ (to_alfred_item now ⟨"work", 3, 1700000000, true, 1700003600⟩).arg = some "work"
        ∧ ((to_alfred_item now ⟨"work", 3, 1700000000, true, 1700003600⟩).subtitle.map
            fun st => pyContains st "attached") = some true
        ∧ ((to_alfred_item now ⟨"work", 3, 1700000000, true, 1700003600⟩).subtitle.map
            fun st => pyContains st "3 windows") = some true
        ∧ ((to_alfred_item now ⟨"work", 3, 1700000000, true, 1700003600⟩).mods.map
            fun m => m.cmd.arg) = some "delete:work"
        ∧ ((to_alfred_item now ⟨"work", 3, 1700000000, true, 1700003600⟩).mods.map
            fun m => m.ctrl.arg) = some "detach:work"
        ∧ ((to_alfred_item now ⟨"work", 3, 1700000000, true, 1700003600⟩).mods.map
            fun m => m.ctrl.valid) = some (some true) := by
  constructor
  · intro now s
    exact ⟨rfl, rfl, rfl, rfl, rfl, rfl⟩
  · intro now
    have hget : get_tmux_sessions (.success "work|3|1700000000|1|1700003600") =
        .ok [⟨"work", 3, 1700000000, true, 1700003600⟩] := by decide
    have hfs : filter_and_sort_sessions [⟨"work", 3, 1700000000, true, 1700003600⟩] "" =
        [⟨"work", 3, 1700000000, true, 1700003600⟩] := by decide
    have hmain : main now "" (get_tmux_sessions (.success "work|3|1700000000|1|1700003600")) =
        [to_alfred_item now ⟨"work", 3, 1700000000, true, 1700003600⟩] := by
      rw [hget]
      simp only [main, hfs, List.map_cons, List.map_nil, List.isEmpty_cons,
        Bool.false_eq_true, if_false]
    refine ⟨hmain, rfl, rfl, ?_, ?_, rfl, rfl, rfl⟩
    · show (some (session_subtitle now ⟨"work", 3, 1700000000, true, 1700003600⟩)).map
        (fun st => pyContains st "attached") = some true
      rw [Option.map_some']
      rw [work_session_contains_attached now]
    · show (some (session_subtitle now ⟨"work", 3, 1700000000, true, 1700003600⟩)).map
        (fun st => pyContains st "3 windows") = some true
      rw [Option.map_some']
      rw [work_session_contains_windows now]

end TmuxSessions
